import Mathlib

/-!
Verification of the incremental NBA game-log scraper (`scrape_nba.py`).

This file gives a shallow embedding of the scraper's core logic:
the date parser (`parse_game_date`), the incremental row scan of
`scrape_player_games`, the staleness decider (`should_scrape_player`),
the batch orchestrator (`scrape_all_players`), the reconciler
(`save_data`) and the exit-status computation of `main`.  External
effects (Selenium calls, file writes) are modelled by explicit
environment records whose fields carry the outcome of each call.
-/

namespace NBA

/-- Season label, from `SEASON = "2025-2026"` in the source. -/
def SEASON : String := "2025-2026"

/-- Column headers of the CSV, from `COLUMNS` in the source (28 columns). -/
def COLUMNS : List String :=
  ["Player", "Season", "Date", "Team", "Opponent", "W/L", "Status",
   "Pos", "MIN", "PTS", "FGM", "FGA", "FG%", "3PM", "3PA", "3P%",
   "FTM", "FTA", "FT%", "ORB", "DRB", "REB", "AST", "STL", "BLK",
   "TOV", "PF", "FIC"]

/-- Whether a year is a leap year (proleptic Gregorian, as used by the
datetime machinery behind `pd.to_datetime`). -/
def isLeapYear (y : Nat) : Bool :=
  (y % 4 == 0 && y % 100 != 0) || y % 400 == 0

/-- Number of days of month `m` in year `y`. -/
def daysInMonth (y m : Nat) : Nat :=
  if m = 2 then (if isLeapYear y then 29 else 28)
  else if m = 4 ∨ m = 6 ∨ m = 9 ∨ m = 11 then 30
  else 31

/-- Split of a character sequence at a separator, as Python
`str.split(sep)` does (the empty sequence yields one empty group). -/
def splitOnChar (sep : Char) : List Char → List (List Char)
  | [] => [[]]
  | c :: rest =>
    if c = sep then [] :: splitOnChar sep rest
    else
      match splitOnChar sep rest with
      | [] => [[c]]
      | g :: gs => (c :: g) :: gs

/-- Numeric value of a non-empty all-digit character group. -/
def digitsToNat? (l : List Char) : Option Nat :=
  if l ≠ [] ∧ l.all (fun c => c.isDigit) then
    some (l.foldl (fun n c => n * 10 + (c.toNat - 48)) 0)
  else none

/-- Model of `parse_game_date`: `pd.to_datetime(date_str, format='%m/%d/%Y')`
wrapped in a `try/except` that returns `None` on failure.  A date is encoded
as the natural number `y * 10000 + m * 100 + d`, which orders encoded dates
exactly as calendar dates.  The strptime-style format accepts one or two
digits for `%m` (value 1..12) and `%d` (a valid day of the month), and
exactly four digits for `%Y`; in addition `pd.Timestamp` is bounded, so
midnight dates outside 1677-09-22 .. 2262-04-11 raise and hence parse to
`none`. -/
def parse_game_date (s : String) : Option Nat :=
  match splitOnChar '/' s.data with
  | [ms, ds, ys] =>
    match digitsToNat? ms, digitsToNat? ds, digitsToNat? ys with
    | some m, some d, some y =>
      if ms.length ≤ 2 ∧ ds.length ≤ 2 ∧ ys.length = 4
          ∧ 1 ≤ m ∧ m ≤ 12 ∧ 1 ≤ d ∧ d ≤ daysInMonth y m
          ∧ 16770922 ≤ y * 10000 + m * 100 + d
          ∧ y * 10000 + m * 100 + d ≤ 22620411
      then some (y * 10000 + m * 100 + d) else none
    | _, _, _ => none
  | _ => none

/-- One table row as seen by the scan loop of `scrape_player_games`:
either the stripped cell texts produced by
`[cell.text.strip() for cell in row.find_elements(...)]`, or the message of
an exception raised while reading the row (caught by the per-row handler). -/
abbrev RowRead := Except String (List String)

/-- The row-scan loop of `scrape_player_games` (source lines 552-587).
State threaded through the loop: `firstDate` (`first_date`), `isDescending`
(`is_descending`) and the accumulated `new_games`.  A row is skipped when
reading it raised or when it has fewer than 3 cells; when `lastDate` is
present and the date cell parses, the scan updates the direction inference
and drops rows dated `≤ lastDate`, breaking out of the loop exactly when
`is_descending` is `True`. -/
def scanRowsAux (playerName : String) (lastDate : Option Nat) :
    List RowRead → Option Nat → Option Bool → List (List String) →
    List (List String)
  | [], _, _, acc => acc
  | Except.error _ :: rest, firstDate, isDescending, acc =>
      scanRowsAux playerName lastDate rest firstDate isDescending acc
  | Except.ok cellData :: rest, firstDate, isDescending, acc =>
      if cellData.isEmpty ∨ cellData.length < 3 then
        scanRowsAux playerName lastDate rest firstDate isDescending acc
      else
        -- game_date = parse_game_date(cell_data[0]) if last_date else None
        let gameDate := if lastDate.isSome then parse_game_date cellData.headI
                        else none
        match lastDate, gameDate with
        | some ld, some gd =>
          -- direction inference from the first two dated rows
          let st2 : Option Nat × Option Bool :=
            match firstDate, isDescending with
            | none, d => (some gd, d)
            | some fd, none => (some fd, some (decide (gd ≤ fd)))
            | some fd, some b => (some fd, some b)
          if gd ≤ ld then
            if st2.2 = some true then acc  -- break
            else scanRowsAux playerName lastDate rest st2.1 st2.2 acc
          else
            scanRowsAux playerName lastDate rest st2.1 st2.2
              (acc ++ [playerName :: SEASON :: cellData])
        | _, _ =>
          scanRowsAux playerName lastDate rest firstDate isDescending
            (acc ++ [playerName :: SEASON :: cellData])

/-- Row scan of `scrape_player_games`, started with `first_date = None`,
`is_descending = None` and an empty `new_games` list. -/
def scanRows (playerName : String) (lastDate : Option Nat)
    (rows : List RowRead) : List (List String) :=
  scanRowsAux playerName lastDate rows none none []

/-- Whether `pat` starts the character sequence `l`. -/
def startsWithChars (pat l : List Char) : Bool :=
  match pat, l with
  | [], _ => true
  | _ :: _, [] => false
  | a :: as, b :: bs => a == b && startsWithChars as bs

/-- Whether `pat` occurs somewhere in the character sequence `l`
(Python `pat in l`). -/
def hasSubChars (pat : List Char) : List Char → Bool
  | [] => startsWithChars pat []
  | c :: rest => startsWithChars pat (c :: rest) || hasSubChars pat rest

/-- Whether the message of a page-load exception mentions a timeout:
`"timeout" in str(e).lower()`. -/
def containsTimeout (e : String) : Bool :=
  hasSubChars "timeout".data (e.data.map Char.toLower)

/-- State of one `<select>` dropdown as the dropdown helpers observe it:
`current` is the stripped text of the selected option (the empty string
when reading it raised), `available` lists the visible option labels, and
`fallbackOk` tells whether `select_by_index(fallback_index)` succeeds. -/
structure DropdownEnv where
  current : String
  available : List String
  fallbackOk : Bool

/-- Model of `select_dropdown_option`: try each candidate label with
`select_by_visible_text` (which succeeds exactly when the label is present,
all exceptions being swallowed), fall back to `select_by_index`. -/
def select_dropdown_option (dd : DropdownEnv) (optionsToTry : List String) :
    Bool :=
  optionsToTry.any (fun t => dd.available.contains t) || dd.fallbackOk

/-- Model of `select_option_if_needed`: return `False` without touching the
dropdown when the current selection already is one of the target labels,
otherwise delegate to `select_dropdown_option`. -/
def select_option_if_needed (dd : DropdownEnv) (optionsToTry : List String) :
    Bool :=
  if optionsToTry.contains dd.current then false
  else select_dropdown_option dd optionsToTry

/-- Environment of one `scrape_player_games` call.  Each field is the
outcome of one external interaction, in the order the code performs them:
`navigate` (`driver.get`), `tableWait` (wait for `table`), `pageName`
(result of `get_player_name_from_page`, which swallows its own errors and
may return `None`), the three dropdowns with the select-element counts
observed at each requery, the table refresh waits, `tbodyWait` (wait for
`table tbody`) and finally the rows read from the table body. -/
structure ScrapeEnv where
  navigate : Except String Unit
  tableWait : Except String Unit
  pageName : Option String
  selectsCount1 : Nat
  league : DropdownEnv
  refresh1 : Except String Unit
  selectsCount2 : Nat
  season : DropdownEnv
  refresh2 : Except String Unit
  selectsCount3 : Nat
  games : DropdownEnv
  refresh3 : Except String Unit
  tbodyWait : Except String Unit
  rows : List RowRead

/-- Resolution of the player name: the page-sourced name wins unless it is
missing or empty (`if page_player_name: player_name = page_player_name`,
empty strings being falsy in Python). -/
def resolvePlayerName (pageName : Option String) (playerName : String) :
    String :=
  match pageName with
  | some s => if s = "" then playerName else s
  | none => playerName

/-- The dropdown-selection phase of `scrape_player_games` (source lines
525-546): guarded by `len(selects) >= 3`, it sets league, season and game
category in turn, waiting for a table refresh (which can raise) after each
actual change and requerying the select elements. -/
def dropdownPhase (env : ScrapeEnv) : Except String Unit :=
  if env.selectsCount1 ≥ 3 then do
    let changedLeague := select_option_if_needed env.league ["NBA"]
    if changedLeague then env.refresh1
    let count2 := if changedLeague then env.selectsCount2 else env.selectsCount1
    let seasonVariations := [SEASON, SEASON.replace "-20" "-"]
    let changedSeason :=
      if count2 ≥ 2 then select_option_if_needed env.season seasonVariations
      else false
    if changedSeason then env.refresh2
    let count3 := if changedSeason then env.selectsCount3 else count2
    if count3 ≥ 3 then
      if select_option_if_needed env.games ["All Games", "Regular Season"] then
        env.refresh3
  else pure ()

/-- Body of the outer `try` of `scrape_player_games` (source lines 504-587):
navigation tolerates a timeout (other navigation errors re-raise), then the
table wait, name resolution, dropdown phase and tbody wait run in sequence,
and the row scan produces the result. -/
def scrape_body (env : ScrapeEnv) (playerName : String)
    (lastDate : Option Nat) : Except String (List (List String)) := do
  match env.navigate with
  | Except.ok _ => pure ()
  | Except.error e => if containsTimeout e then pure () else throw e
  env.tableWait
  let pn := resolvePlayerName env.pageName playerName
  dropdownPhase env
  env.tbodyWait
  pure (scanRows pn lastDate env.rows)

/-- Model of `scrape_player_games`: the body runs inside `try/except`, and
any escaping exception is logged and converted to an empty result list. -/
def scrape_player_games (env : ScrapeEnv) (playerName : String)
    (lastDate : Option Nat) : List (List String) :=
  match scrape_body env playerName lastDate with
  | Except.ok gs => gs
  | Except.error _ => []

/-- Model of `should_scrape_player`.  Dates and the current instant are
epoch seconds; `(today - last_date).days` is the floor of the elapsed
seconds divided by 86400, as for a Python `timedelta`. -/
def should_scrape_player (playerName : String)
    (playerLastDates : List (String × Int)) (now : Int) : Bool × String :=
  match playerLastDates.lookup playerName with
  | none => (true, "新球員")
  | some lastDate =>
    let daysSinceLast : Int := (now - lastDate).fdiv 86400
    if daysSinceLast = 0 then (false, "今天已有資料")
    else (true, "距上次 " ++ toString daysSinceLast ++ " 天")

/-- Run statistics of `scrape_all_players` (the `stats` dict). -/
structure RunStats where
  total : Nat
  scraped : Nat
  skipped : Nat
  newGames : Nat
  errors : Nat
  browserRestarts : Nat
deriving DecidableEq

/-- Loop state of `scrape_all_players`: accumulated records, statistics,
the consecutive-error counter and the current browser instance (numbered,
so that a restart visibly produces a fresh instance). -/
structure OrchState where
  games : List (List String)
  stats : RunStats
  consecutiveErrors : Nat
  driver : Nat
deriving DecidableEq

/-- Outcome of the retry loop (`for retry in range(max_retries)` with
`max_retries = 3`): the first successful attempt, or the error of the
final attempt when all three fail. -/
def attemptResult (outcomes : Nat → Except String (List (List String))) :
    Except String (List (List String)) :=
  match outcomes 0 with
  | Except.ok gs => Except.ok gs
  | Except.error _ =>
    match outcomes 1 with
    | Except.ok gs => Except.ok gs
    | Except.error _ => outcomes 2

/-- The retry loop of `scrape_all_players` (source lines 648-685) acting on
the orchestrator state: a success extends the accumulated records, bumps
`scraped` and `new_games` and resets `consecutive_errors`; exhaustion of
the three attempts bumps `errors` and `consecutive_errors`. -/
def retryPhase (outcomes : Nat → Except String (List (List String)))
    (st : OrchState) : OrchState :=
  match attemptResult outcomes with
  | Except.ok newGames =>
    { st with games := st.games ++ newGames,
              stats := { st.stats with
                          newGames := st.stats.newGames + newGames.length,
                          scraped := st.stats.scraped + 1 },
              consecutiveErrors := 0 }
  | Except.error _ =>
    { st with stats := { st.stats with errors := st.stats.errors + 1 },
              consecutiveErrors := st.consecutiveErrors + 1 }

/-- `MAX_CONSECUTIVE_ERRORS = 5` from the source. -/
def MAX_CONSECUTIVE_ERRORS : Nat := 5

/-- The browser-restart check of `scrape_all_players` (source lines
687-709): when the consecutive-error counter has reached the threshold the
old driver is discarded and a fresh one is requested — on success the
restart counter is bumped and the consecutive-error counter reset, on
failure the loop terminates early with the records accumulated so far
(`Sum.inr`). -/
def restartCheck (restartOutcome : Nat → Except String Unit)
    (st : OrchState) : OrchState ⊕ (List (List String) × RunStats) :=
  if st.consecutiveErrors ≥ MAX_CONSECUTIVE_ERRORS then
    match restartOutcome st.stats.browserRestarts with
    | Except.ok _ =>
      Sum.inl { st with
                  stats := { st.stats with
                              browserRestarts := st.stats.browserRestarts + 1 },
                  consecutiveErrors := 0,
                  driver := st.driver + 1 }
    | Except.error _ => Sum.inr (st.games, st.stats)
  else Sum.inl st

/-- Environment of the batch orchestrator: `attempts i r` is the outcome of
retry `r` of the detail fetch for the `i`-th player (1-based, as in
`enumerate(players, start=1)`), and `restart n` is the outcome of the
`n`-th browser re-acquisition. -/
structure OrchEnv where
  attempts : Nat → Nat → Except String (List (List String))
  restart : Nat → Except String Unit

/-- The player loop of `scrape_all_players`: consult the staleness decider,
skip or run the retry phase, then the restart check; a failed restart
returns the accumulated records with no driver (`none`). -/
def scrapeLoop (env : OrchEnv) (lastDates : List (String × Int)) (now : Int) :
    List (String × String) → Nat → OrchState →
    List (List String) × RunStats × Option Nat
  | [], _, st => (st.games, st.stats, some st.driver)
  | (name, _link) :: rest, idx, st =>
    let decision := should_scrape_player name lastDates now
    if !decision.1 then
      scrapeLoop env lastDates now rest (idx + 1)
        { st with stats := { st.stats with skipped := st.stats.skipped + 1 } }
    else
      let st1 := retryPhase (env.attempts idx) st
      match restartCheck env.restart st1 with
      | Sum.inl st2 => scrapeLoop env lastDates now rest (idx + 1) st2
      | Sum.inr (gs, stats) => (gs, stats, none)

/-- Model of `scrape_all_players` (source lines 594-714). -/
def scrape_all_players (env : OrchEnv) (players : List (String × String))
    (lastDates : List (String × Int)) (now : Int) :
    List (List String) × RunStats × Option Nat :=
  scrapeLoop env lastDates now players 1
    ⟨[], ⟨players.length, 0, 0, 0, 0, 0⟩, 0, 0⟩

/-- Exit-status computation of `main` (source lines 799-883).  The run
summary is `Except.error` for an unhandled top-level exception, otherwise
`(noPlayers, scraped, errors)`.  The error-rate test
`stats['errors'] / total_attempted > 0.1` is the exact rational comparison
`10 * errors > scraped + errors` (for the magnitudes reachable here the
float division compares identically). -/
def mainExitCode (run : Except String (Bool × Nat × Nat)) : Nat :=
  match run with
  | Except.error _ => 1
  | Except.ok (noPlayers, scraped, errors) =>
    if noPlayers then 1
    else if 0 < scraped + errors ∧ scraped + errors < 10 * errors then 1
    else 0

/-- One cell of a persisted record: `none` is a missing value (`NaN`). -/
abbrev Cell := Option String

/-- One persisted record (a row of the merged DataFrame). -/
abbrev Record := List Cell

/-- Identity key of a record: the `['Player', 'Date', 'Team', 'Opponent']`
columns (indices 0, 2, 3, 4 of `COLUMNS`) used by `drop_duplicates`. -/
def recordKey (r : Record) : Option Cell × Option Cell × Option Cell × Option Cell :=
  (r[0]?, r[2]?, r[3]?, r[4]?)

/-- Whether a record with the same identity key occurs in `l`. -/
def keyedIn (r : Record) (l : List Record) : Bool :=
  l.any (fun s => decide (recordKey s = recordKey r))

/-- Model of `drop_duplicates(subset=['Player','Date','Team','Opponent'],
keep='last')`: a row survives exactly when no later row carries the same
identity key, and the surviving rows keep their order. -/
def dedupLast : List Record → List Record
  | [] => []
  | r :: rs => if keyedIn r rs then dedupLast rs else r :: dedupLast rs

/-- The `Player` cell of a record. -/
def playerCell (r : Record) : Option String := (r[0]?).join

/-- The `Date` cell of a record. -/
def dateCell (r : Record) : Option String := (r[2]?).join

/-- The `_date_sort` column: `pd.to_datetime(combined_df['Date'],
format='%m/%d/%Y', errors='coerce')` — `none` is `NaT`. -/
def dateKey (r : Record) : Option Nat := (dateCell r).bind parse_game_date

/-- Sort key of `sort_values(['Player', '_date_sort'],
ascending=[True, False])`. -/
def sortKey (r : Record) : Option String × Option Nat :=
  (playerCell r, dateKey r)

/-- Lexicographic comparison of character sequences by code point, the
order Python uses to compare the `Player` strings. -/
def strLEb : List Char → List Char → Bool
  | [], _ => true
  | _ :: _, [] => false
  | c :: cs, d :: ds => if c < d then true else if d < c then false
                        else strLEb cs ds

/-- Ascending order on `Player` values with missing values last
(`na_position='last'`). -/
def optStrLE (a b : Option String) : Bool :=
  match a, b with
  | none, none => true
  | none, some _ => false
  | some _, none => true
  | some x, some y => strLEb x.data y.data

/-- Descending order on parsed dates with `NaT` last
(`ascending=False`, `na_position='last'`). -/
def optDateLE (a b : Option Nat) : Bool :=
  match a, b with
  | none, none => true
  | none, some _ => false
  | some _, none => true
  | some x, some y => decide (y ≤ x)

/-- Lexicographic comparison of sort keys: `Player` ascending, then parsed
date descending. -/
def keyLE (a b : Option String × Option Nat) : Bool :=
  if a.1 = b.1 then optDateLE a.2 b.2 else optStrLE a.1 b.1

/-- The sort-key comparison as a binary relation. -/
abbrev keyRel (a b : Option String × Option Nat) : Prop := keyLE a b = true

/-- The distinct sort keys of a record list, in ascending `keyLE` order. -/
def sortedKeys (l : List Record) : List (Option String × Option Nat) :=
  List.insertionSort keyRel ((l.map sortKey).dedup)

/-- The rows of `l` carrying sort key `k`, in their input order. -/
def keyGroup (l : List Record) (k : Option String × Option Nat) :
    List Record :=
  l.filter (fun r => decide (sortKey r = k))

/-- Model of the stable lexicographic sort performed by
`sort_values(['Player', '_date_sort'], ascending=[True, False])` (pandas
multi-key sorts use `np.lexsort`, which is stable): list the distinct sort
keys in ascending order, and emit for each key the rows carrying it in
their input order. -/
def sortRecords (l : List Record) : List Record :=
  (sortedKeys l).flatMap (keyGroup l)

/-- Maximal row length of the raw `new_games` lists. -/
def maxRowLen (l : List (List String)) : Nat :=
  l.foldr (fun r m => max r.length m) 0

/-- Padding of a raw scraped row to the DataFrame width: pandas places the
row's cells first and fills the remaining columns with missing values. -/
def padRow (r : List String) : Record :=
  r.map some ++ List.replicate (COLUMNS.length - r.length) none

/-- Model of `pd.DataFrame(new_games, columns=COLUMNS)` on a non-empty list
of rows: pandas forms an `n × k` object array with `k` the maximal row
length, padding shorter rows with missing values, and then requires
`len(COLUMNS) == k` (an `AssertionError` — modelled as `none` — otherwise). -/
def buildDataFrame (newGames : List (List String)) : Option (List Record) :=
  if maxRowLen newGames = COLUMNS.length then some (newGames.map padRow)
  else none

/-- Model of `save_data` (source lines 717-778).  The result carries the
returned DataFrame together with a flag telling whether the CSV was
(re)written; `Except.error` is an escaping exception (the DataFrame
constructor), in which case nothing is written. -/
def save_data (existing : List Record) (newGames : List (List String)) :
    Except String (List Record × Bool) :=
  if newGames.isEmpty then Except.ok (existing, false)
  else
    match buildDataFrame newGames with
    | none => Except.error "columns passed, passed data had different width"
    | some newRecs =>
      let combined := if existing.isEmpty then newRecs else existing ++ newRecs
      Except.ok (sortRecords (dedupLast combined), true)

/-- Keyword test of the orchestrator for connectivity-class failures
(`is_connection_error`, source lines 674-676): any of the keywords occurs
in the lower-cased exception message. -/
def is_connection_error (msg : String) : Bool :=
  ["timeout", "connection", "refused", "reset", "broken pipe"].any
    (fun kw => hasSubChars kw.data (msg.data.map Char.toLower))

/-- A sample 28-column raw row (player, season, date, team, opponent,
outcome, status, position, 19 zero box-score cells, and a final cell that
lets otherwise identical rows differ), used by the concrete witnesses. -/
def wRow (p dt t o fic : String) : List String :=
  [p, "2025-2026", dt, t, o, "W", "Active", "G"] ++
    List.replicate 19 "0" ++ [fic]

/-- Keep-condition of the ascending-scan characterisation: a row survives
the boundary filter when it has at least 3 cells and its date either fails
to parse or parses strictly beyond the boundary. -/
def rowSurvives (ld : Nat) (cells : List String) : Bool :=
  decide (3 ≤ cells.length) &&
    (match parse_game_date cells.headI with
     | some gd => decide (ld < gd)
     | none => true)

/-- Records produced from a row suffix once the scan has settled on a
non-descending direction: every remaining readable row is kept or dropped
individually by the boundary filter, with no early break. -/
def keptRows (pn : String) (ld : Nat) (rows : List RowRead) :
    List (List String) :=
  rows.filterMap (fun rr =>
    match rr with
    | Except.ok cells =>
      if rowSurvives ld cells then some (pn :: SEASON :: cells) else none
    | Except.error _ => none)

/-! ## Claim C5: the staleness decider -/

/-- C5: the Staleness Decider fetches an unknown player with the
new-player reason, skips a known player whose last date lies 0 whole days
in the past with the already-current reason, and otherwise fetches with a
reason stating the number of days; in particular a last date of today
(with `now` inside the same day) yields skip, and a last date of yesterday
— or an absent player — yields fetch.  (The reason strings are the
code's Chinese literals, which the spec glosses in English.) -/
theorem C5_staleness_decider :
    (∀ name idx (now : Int), idx.lookup name = none →
        should_scrape_player name idx now = (true, "新球員")) ∧
    (∀ name idx (now last : Int), idx.lookup name = some last →
        (now - last).fdiv 86400 = 0 →
        should_scrape_player name idx now = (false, "今天已有資料")) ∧
    (∀ name idx (now last : Int), idx.lookup name = some last →
        (now - last).fdiv 86400 ≠ 0 →
        should_scrape_player name idx now =
          (true, "距上次 " ++ toString ((now - last).fdiv 86400) ++ " 天")) ∧
    (∀ name idx (dayStart tod : Int), 0 ≤ tod → tod < 86400 →
        idx.lookup name = some dayStart →
        (should_scrape_player name idx (dayStart + tod)).1 = false) ∧
    (∀ name idx (dayStart tod : Int), 0 ≤ tod → tod < 86400 →
        idx.lookup name = some (dayStart - 86400) →
        (should_scrape_player name idx (dayStart + tod)).1 = true) := by
  refine ⟨?_, ?_, ?_, ?_, ?_⟩
  · intro name idx now h
    simp [should_scrape_player, h]
  · intro name idx now last h hd
    simp [should_scrape_player, h, hd]
  · intro name idx now last h hd
    simp [should_scrape_player, h, hd]
  · intro name idx dayStart tod h0 h1 h
    have hz : tod.fdiv 86400 = 0 := by
      rw [Int.fdiv_eq_ediv _ (by norm_num), Int.ediv_eq_zero_of_lt h0 h1]
    simp [should_scrape_player, h, hz]
  · intro name idx dayStart tod h0 h1 h
    have hz : (tod + 86400).fdiv 86400 = 1 := by
      have he : tod + 86400 = tod + 86400 * 1 := by ring
      rw [he, Int.fdiv_eq_ediv _ (by norm_num),
        Int.add_mul_ediv_left tod 1 (by norm_num : (86400 : Int) ≠ 0),
        Int.ediv_eq_zero_of_lt h0 h1]
      norm_num
    simp [should_scrape_player, h, hz]

/-- Concrete instance of C5: an absent player is fetched, a player whose
last game was today (one hour before `now`) is skipped, a player whose
last game was yesterday is fetched. -/
theorem C5_staleness_decider_witness :
    should_scrape_player "A. Absent" [] 3600 = (true, "新球員") ∧
    (should_scrape_player "B. Today" [("B. Today", 0)] 3600).1 = false ∧
    (should_scrape_player "C. Yesterday" [("C. Yesterday", -86400)] 3600).1 =
      true := by
  refine ⟨?_, ?_, ?_⟩
  · exact C5_staleness_decider.1 "A. Absent" [] 3600 (by decide)
  · exact C5_staleness_decider.2.2.2.1 "B. Today" [("B. Today", 0)] 0 3600
      (by decide) (by decide) (by decide)
  · exact C5_staleness_decider.2.2.2.2 "C. Yesterday" [("C. Yesterday", -86400)]
      0 3600 (by decide) (by decide) (by decide)

/-! ## Claim C8: the exit status -/

/-- Amended C8: the run exits 0 exactly when the directory was non-empty,
no top-level error escaped, and the error rate among attempted fetches is
at most the 10% threshold (or there were no attempts); the code uses a
strict `> 0.1` comparison, so a rate of exactly 10% still exits 0, and the
exit code is 1 when the rate is strictly over the threshold, when the
directory fetch yields zero entities, or on an unhandled top-level
error. -/
theorem C8_exit_code_amended (run : Except String (Bool × Nat × Nat)) :
    mainExitCode run = 0 ↔
      ∃ scraped errors, run = Except.ok (false, scraped, errors) ∧
        (scraped + errors = 0 ∨ 10 * errors ≤ scraped + errors) := by
  cases run with
  | error e => simp [mainExitCode]
  | ok t =>
    obtain ⟨noPlayers, scraped, errors⟩ := t
    cases noPlayers with
    | false =>
      by_cases h : 0 < scraped + errors ∧ scraped + errors < 10 * errors
      · simp only [mainExitCode, if_pos h]
        constructor
        · intro h10; exact absurd h10 one_ne_zero
        · rintro ⟨s, e, heq, hrate⟩
          have hs : scraped = s ∧ errors = e := by simpa using heq
          obtain ⟨rfl, rfl⟩ := hs
          omega
      · simp only [mainExitCode, if_neg h]
        constructor
        · intro _
          exact ⟨scraped, errors, rfl, by omega⟩
        · intro _; rfl
    | true =>
      simp [mainExitCode]

/-- C8 counterexample: with 9 successful fetches and 1 failed fetch the
error rate is exactly 10%, which is not under the threshold, yet the exit
code is 0 — refuting the claim that the exit status is 0 exactly when the
error rate stays strictly under 10%. -/
theorem C8_counterexample :
    ¬ (mainExitCode (Except.ok (false, 9, 1)) = 0 ↔ 10 * 1 < 9 + 1) := by
  decide

/-! ## Claim C7: error accounting and browser restarts in the orchestrator -/

/-- Whenever one of the three retry attempts succeeds, the retry loop as a
whole succeeds (it stops at the first success). -/
theorem attemptResult_isOk_of_exists
    (outcomes : Nat → Except String (List (List String)))
    (h : ∃ r, r < 3 ∧ (outcomes r).isOk = true) :
    (attemptResult outcomes).isOk = true := by
  obtain ⟨r, hr, hok⟩ := h
  unfold attemptResult
  cases h0 : outcomes 0 with
  | ok g => rfl
  | error e0 =>
    cases h1 : outcomes 1 with
    | ok g => rfl
    | error e1 =>
      cases h2 : outcomes 2 with
      | ok g => rfl
      | error e2 =>
        interval_cases r
        · rw [h0] at hok; simp [Except.isOk, Except.toBool] at hok
        · rw [h1] at hok; simp [Except.isOk, Except.toBool] at hok
        · rw [h2] at hok; simp [Except.isOk, Except.toBool] at hok

/-- C7: in the batch orchestrator, (a) a connectivity-class failure on the
final retry attempt increments both the error count and the
consecutive-error counter, (b) a successful attempt resets the
consecutive-error counter to zero, (c) when the consecutive-error counter
has reached `MAX_CONSECUTIVE_ERRORS = 5` the orchestrator discards the
current browser and acquires a fresh one, incrementing the restart counter
and resetting the consecutive-error counter, and returns the records
accumulated so far when re-acquisition fails, and (d) concretely, a run
whose first five fetched players fail every retry with connectivity errors
and whose restart fails ends early with the accumulated records and no
driver. -/
theorem C7_orchestrator_error_handling :
    (∀ outcomes (st : OrchState) e0 e1 e2,
        outcomes 0 = Except.error e0 → outcomes 1 = Except.error e1 →
        outcomes 2 = Except.error e2 → is_connection_error e2 = true →
        (retryPhase outcomes st).stats.errors = st.stats.errors + 1 ∧
        (retryPhase outcomes st).consecutiveErrors =
          st.consecutiveErrors + 1) ∧
    (∀ outcomes (st : OrchState),
        (∃ r, r < 3 ∧ (outcomes r).isOk = true) →
        (retryPhase outcomes st).consecutiveErrors = 0) ∧
    (∀ restartOutcome (st : OrchState),
        MAX_CONSECUTIVE_ERRORS ≤ st.consecutiveErrors →
        (restartOutcome st.stats.browserRestarts = Except.ok () →
          restartCheck restartOutcome st = Sum.inl
            { st with
                stats := { st.stats with
                            browserRestarts := st.stats.browserRestarts + 1 },
                consecutiveErrors := 0,
                driver := st.driver + 1 }) ∧
        (∀ e, restartOutcome st.stats.browserRestarts = Except.error e →
          restartCheck restartOutcome st = Sum.inr (st.games, st.stats))) ∧
    (∀ (env : OrchEnv) (now : Int) n1 l1 n2 l2 n3 l3 n4 l4 n5 l5
        (rest : List (String × String)),
        (∀ i r, env.attempts i r = Except.error "connection reset by peer") →
        env.restart 0 = Except.error "browser launch failed" →
        scrape_all_players env
          ((n1, l1) :: (n2, l2) :: (n3, l3) :: (n4, l4) :: (n5, l5) :: rest)
          [] now =
          ([], ⟨rest.length + 5, 0, 0, 0, 5, 0⟩, none)) := by
  refine ⟨?_, ?_, ?_, ?_⟩
  · intro outcomes st e0 e1 e2 h0 h1 h2 _hconn
    unfold retryPhase attemptResult
    rw [h0, h1, h2]
    exact ⟨rfl, rfl⟩
  · intro outcomes st h
    have hok := attemptResult_isOk_of_exists outcomes h
    unfold retryPhase
    cases ha : attemptResult outcomes with
    | ok g => rfl
    | error e => rw [ha] at hok; simp [Except.isOk, Except.toBool] at hok
  · intro restartOutcome st hge
    constructor
    · intro hok
      unfold restartCheck
      rw [if_pos hge, hok]
    · intro e herr
      unfold restartCheck
      rw [if_pos hge, herr]
  · intro env now n1 l1 n2 l2 n3 l3 n4 l4 n5 l5 rest hA hR
    simp [scrape_all_players, scrapeLoop, should_scrape_player, retryPhase,
      attemptResult, restartCheck, MAX_CONSECUTIVE_ERRORS, hA, hR]

/-- Concrete instance of C7: each clause of the orchestrator
error-handling theorem applied at an explicit state. -/
theorem C7_orchestrator_error_handling_witness :
    (retryPhase (fun _ => Except.error "timeout")
        ⟨[], ⟨1, 0, 0, 0, 0, 0⟩, 0, 0⟩).stats.errors = 1 ∧
    (retryPhase (fun r => if r = 0 then Except.ok [["g"]]
                          else Except.error "x")
        ⟨[], ⟨1, 0, 0, 0, 0, 0⟩, 3, 0⟩).consecutiveErrors = 0 ∧
    restartCheck (fun _ => Except.error "boom")
        ⟨[["g"]], ⟨9, 4, 0, 4, 5, 0⟩, 5, 0⟩ =
      Sum.inr ([["g"]], ⟨9, 4, 0, 4, 5, 0⟩) ∧
    scrape_all_players
      ⟨fun _ _ => Except.error "connection reset by peer",
       fun _ => Except.error "browser launch failed"⟩
      [("a", "u"), ("b", "u"), ("c", "u"), ("d", "u"), ("e", "u")] [] 0 =
      ([], ⟨5, 0, 0, 0, 5, 0⟩, none) := by
  refine ⟨?_, ?_, ?_, ?_⟩
  · exact (C7_orchestrator_error_handling.1 (fun _ => Except.error "timeout")
      ⟨[], ⟨1, 0, 0, 0, 0, 0⟩, 0, 0⟩ "timeout" "timeout" "timeout"
      rfl rfl rfl (by decide)).1
  · exact C7_orchestrator_error_handling.2.1
      (fun r => if r = 0 then Except.ok [["g"]] else Except.error "x")
      ⟨[], ⟨1, 0, 0, 0, 0, 0⟩, 3, 0⟩ ⟨0, by omega, rfl⟩
  · exact (C7_orchestrator_error_handling.2.2.1 (fun _ => Except.error "boom")
      ⟨[["g"]], ⟨9, 4, 0, 4, 5, 0⟩, 5, 0⟩ (by decide)).2 "boom" rfl
  · exact C7_orchestrator_error_handling.2.2.2
      ⟨fun _ _ => Except.error "connection reset by peer",
       fun _ => Except.error "browser launch failed"⟩ 0
      "a" "u" "b" "u" "c" "u" "d" "u" "e" "u" []
      (fun _ _ => rfl) rfl

/-! ## Order properties of the sort-key comparison -/

/-- Totality of the code-point comparison. -/
theorem strLEb_total : ∀ a b, strLEb a b = true ∨ strLEb b a = true
  | [], _ => Or.inl rfl
  | _ :: _, [] => Or.inr rfl
  | c :: cs, d :: ds => by
    rcases lt_trichotomy c d with h | h | h
    · left; simp [strLEb, h]
    · subst h
      rcases strLEb_total cs ds with h | h
      · left; simp [strLEb, h, lt_irrefl]
      · right; simp [strLEb, h, lt_irrefl]
    · right; simp [strLEb, h]

/-- Transitivity of the code-point comparison. -/
theorem strLEb_trans : ∀ a b c, strLEb a b = true → strLEb b c = true →
    strLEb a c = true
  | [], _, _, _, _ => rfl
  | _ :: _, [], _, h1, _ => by simp [strLEb] at h1
  | _ :: _, _ :: _, [], _, h2 => by simp [strLEb] at h2
  | x :: xs, y :: ys, z :: zs, h1, h2 => by
    rcases lt_trichotomy x y with hxy | hxy | hxy
    · rcases lt_trichotomy y z with hyz | hyz | hyz
      · simp [strLEb, lt_trans hxy hyz]
      · subst hyz; simp [strLEb, hxy]
      · exfalso; simp [strLEb, asymm hyz, hyz] at h2
    · subst hxy
      simp [strLEb, lt_irrefl] at h1
      rcases lt_trichotomy x z with hyz | hyz | hyz
      · simp [strLEb, hyz]
      · subst hyz
        simp [strLEb, lt_irrefl] at h2 ⊢
        exact strLEb_trans _ _ _ h1 h2
      · exfalso; simp [strLEb, asymm hyz, hyz] at h2
    · exfalso; simp [strLEb, asymm hxy, hxy] at h1

/-- Antisymmetry of the code-point comparison. -/
theorem strLEb_antisymm : ∀ a b, strLEb a b = true → strLEb b a = true → a = b
  | [], [], _, _ => rfl
  | [], _ :: _, _, h2 => by simp [strLEb] at h2
  | _ :: _, [], h1, _ => by simp [strLEb] at h1
  | a :: as, b :: bs, h1, h2 => by
    rcases lt_trichotomy a b with h | h | h
    · exfalso; simp [strLEb, h, asymm h] at h2
    · subst h
      simp [strLEb, lt_irrefl] at h1 h2
      rw [strLEb_antisymm as bs h1 h2]
    · exfalso; simp [strLEb, h, asymm h] at h1

theorem optStrLE_total : ∀ a b, optStrLE a b = true ∨ optStrLE b a = true
  | none, none => Or.inl rfl
  | none, some _ => Or.inr rfl
  | some _, none => Or.inl rfl
  | some x, some y => strLEb_total x.data y.data

theorem optStrLE_trans : ∀ a b c, optStrLE a b = true → optStrLE b c = true →
    optStrLE a c = true
  | none, none, c, _, h2 => h2
  | none, some _, _, h1, _ => by simp [optStrLE] at h1
  | some _, none, none, _, _ => rfl
  | some _, none, some _, _, h2 => by simp [optStrLE] at h2
  | some _, some _, none, _, _ => rfl
  | some x, some y, some z, h1, h2 => strLEb_trans x.data y.data z.data h1 h2

theorem optStrLE_antisymm : ∀ a b, optStrLE a b = true → optStrLE b a = true →
    a = b
  | none, none, _, _ => rfl
  | none, some _, h1, _ => by simp [optStrLE] at h1
  | some _, none, _, h2 => by simp [optStrLE] at h2
  | some x, some y, h1, h2 =>
      congrArg some (String.ext (strLEb_antisymm x.data y.data h1 h2))

theorem optDateLE_total : ∀ a b, optDateLE a b = true ∨ optDateLE b a = true
  | none, none => Or.inl rfl
  | none, some _ => Or.inr rfl
  | some _, none => Or.inl rfl
  | some x, some y => by
    rcases Nat.le_total x y with h | h
    · right; simpa [optDateLE] using h
    · left; simpa [optDateLE] using h

theorem optDateLE_trans : ∀ a b c, optDateLE a b = true → optDateLE b c = true →
    optDateLE a c = true
  | none, none, _, _, h2 => h2
  | none, some _, _, h1, _ => by simp [optDateLE] at h1
  | some _, none, none, _, _ => rfl
  | some _, none, some _, _, h2 => by simp [optDateLE] at h2
  | some _, some _, none, _, _ => rfl
  | some x, some y, some z, h1, h2 => by
    simp [optDateLE] at h1 h2 ⊢
    omega

theorem optDateLE_antisymm : ∀ a b, optDateLE a b = true → optDateLE b a = true →
    a = b
  | none, none, _, _ => rfl
  | none, some _, h1, _ => by simp [optDateLE] at h1
  | some _, none, _, h2 => by simp [optDateLE] at h2
  | some x, some y, h1, h2 => by
    simp [optDateLE] at h1 h2
    exact congrArg some (Nat.le_antisymm h2 h1)

theorem optDateLE_refl (a : Option Nat) : optDateLE a a = true := by
  cases a <;> simp [optDateLE]

theorem keyLE_refl (a : Option String × Option Nat) : keyLE a a = true := by
  simp [keyLE, optDateLE_refl]

theorem keyLE_total (a b : Option String × Option Nat) :
    keyLE a b = true ∨ keyLE b a = true := by
  unfold keyLE
  by_cases h : a.1 = b.1
  · rw [if_pos h, if_pos h.symm]
    exact optDateLE_total a.2 b.2
  · rw [if_neg h, if_neg (Ne.symm h)]
    exact optStrLE_total a.1 b.1

theorem keyLE_trans (a b c : Option String × Option Nat) :
    keyLE a b = true → keyLE b c = true → keyLE a c = true := by
  unfold keyLE
  by_cases hab : a.1 = b.1 <;> by_cases hbc : b.1 = c.1
  · rw [if_pos hab, if_pos hbc, if_pos (hab.trans hbc)]
    exact optDateLE_trans a.2 b.2 c.2
  · rw [if_pos hab, if_neg hbc, if_neg (fun h => hbc (hab.symm.trans h))]
    intro _ h2
    rw [hab]; exact h2
  · rw [if_neg hab, if_pos hbc, if_neg (fun h => hab (h.trans hbc.symm))]
    intro h1 _
    rw [← hbc]; exact h1
  · rw [if_neg hab, if_neg hbc]
    intro h1 h2
    by_cases hac : a.1 = c.1
    · exfalso
      exact hab (optStrLE_antisymm a.1 b.1 h1 (hac ▸ h2))
    · rw [if_neg hac]
      exact optStrLE_trans a.1 b.1 c.1 h1 h2

theorem keyLE_antisymm (a b : Option String × Option Nat) :
    keyLE a b = true → keyLE b a = true → a = b := by
  unfold keyLE
  by_cases hab : a.1 = b.1
  · rw [if_pos hab, if_pos hab.symm]
    intro h1 h2
    exact Prod.ext hab (optDateLE_antisymm a.2 b.2 h1 h2)
  · rw [if_neg hab, if_neg (Ne.symm hab)]
    intro h1 h2
    exact absurd (optStrLE_antisymm a.1 b.1 h1 h2) hab

instance : IsTotal (Option String × Option Nat) keyRel :=
  ⟨keyLE_total⟩

instance : IsTrans (Option String × Option Nat) keyRel :=
  ⟨keyLE_trans⟩

instance : IsAntisymm (Option String × Option Nat) keyRel :=
  ⟨keyLE_antisymm⟩

/-! ## Properties of `dedupLast` -/

theorem keyedIn_eq_false {r : Record} {l : List Record} :
    keyedIn r l = false ↔ ∀ s ∈ l, recordKey s ≠ recordKey r := by
  unfold keyedIn
  rw [← Bool.not_eq_true, List.any_eq_true]
  simp

theorem keyedIn_append (r : Record) (a b : List Record) :
    keyedIn r (a ++ b) = (keyedIn r a || keyedIn r b) := by
  unfold keyedIn
  exact List.any_append

/-- The deduplicated list is a sublist of the input (rows are only
dropped, never reordered). -/
theorem dedupLast_sublist : ∀ l : List Record, (dedupLast l).Sublist l
  | [] => List.Sublist.refl _
  | r :: rs => by
    unfold dedupLast
    by_cases h : keyedIn r rs
    · rw [if_pos h]
      exact (dedupLast_sublist rs).cons r
    · rw [if_neg h]
      exact (dedupLast_sublist rs).cons₂ r

/-- After deduplication no two rows share an identity key. -/
theorem dedupLast_pairwise :
    ∀ l : List Record,
      List.Pairwise (fun a b => recordKey a ≠ recordKey b) (dedupLast l)
  | [] => List.Pairwise.nil
  | r :: rs => by
    unfold dedupLast
    by_cases h : keyedIn r rs
    · rw [if_pos h]
      exact dedupLast_pairwise rs
    · rw [if_neg h]
      refine List.Pairwise.cons ?_ (dedupLast_pairwise rs)
      intro b hb he
      have hmem : b ∈ rs := (dedupLast_sublist rs).subset hb
      have hfalse : keyedIn r rs = false := by simpa using h
      exact keyedIn_eq_false.mp hfalse b hmem he.symm

/-- Membership in the deduplicated list characterised: exactly the rows
that occur with no later row of the same identity key survive. -/
theorem mem_dedupLast (r : Record) : ∀ l : List Record,
    r ∈ dedupLast l ↔ ∃ l1 l2, l = l1 ++ r :: l2 ∧ keyedIn r l2 = false
  | [] => by
    constructor
    · intro h; exact absurd h (by simp [dedupLast])
    · rintro ⟨l1, l2, heq, -⟩
      exact absurd heq.symm (by simp)
  | a :: l => by
    unfold dedupLast
    by_cases h : keyedIn a l
    · rw [if_pos h, mem_dedupLast r l]
      constructor
      · rintro ⟨l1, l2, rfl, hk⟩
        exact ⟨a :: l1, l2, rfl, hk⟩
      · rintro ⟨l1, l2, heq, hk⟩
        cases l1 with
        | nil =>
          simp only [List.nil_append, List.cons.injEq] at heq
          obtain ⟨rfl, rfl⟩ := heq
          exact absurd h (by simp [hk])
        | cons x l1 =>
          simp only [List.cons_append, List.cons.injEq] at heq
          obtain ⟨rfl, rfl⟩ := heq
          exact ⟨l1, l2, rfl, hk⟩
    · rw [if_neg h, List.mem_cons, mem_dedupLast r l]
      constructor
      · rintro (rfl | ⟨l1, l2, rfl, hk⟩)
        · exact ⟨[], l, rfl, by simpa using h⟩
        · exact ⟨a :: l1, l2, rfl, hk⟩
      · rintro ⟨l1, l2, heq, hk⟩
        cases l1 with
        | nil =>
          simp only [List.nil_append, List.cons.injEq] at heq
          obtain ⟨rfl, rfl⟩ := heq
          exact Or.inl rfl
        | cons x l1 =>
          simp only [List.cons_append, List.cons.injEq] at heq
          obtain ⟨rfl, rfl⟩ := heq
          exact Or.inr ⟨l1, l2, rfl, hk⟩

/-- Deduplication of an append: rows of the first part survive exactly
when they survive locally and their key does not reappear in the second
part; rows of the second part dedup on their own. -/
theorem dedupLast_append : ∀ a b : List Record,
    dedupLast (a ++ b) =
      (dedupLast a).filter (fun r => !keyedIn r b) ++ dedupLast b
  | [], b => by simp [dedupLast]
  | r :: a, b => by
    rw [List.cons_append]
    show (if keyedIn r (a ++ b) then dedupLast (a ++ b)
          else r :: dedupLast (a ++ b)) =
      List.filter (fun r => !keyedIn r b)
        (if keyedIn r a then dedupLast a else r :: dedupLast a) ++ dedupLast b
    rw [keyedIn_append]
    by_cases ha : keyedIn r a
    · rw [ha, if_pos rfl, Bool.true_or, if_pos rfl]
      exact dedupLast_append a b
    · have ha' : keyedIn r a = false := by simpa using ha
      rw [ha', Bool.false_or]
      by_cases hb : keyedIn r b
      · rw [hb]
        simp only [if_true, List.filter_cons, hb, Bool.not_true,
          Bool.false_eq_true, if_false]
        exact dedupLast_append a b
      · have hb' : keyedIn r b = false := by simpa using hb
        rw [hb']
        simp only [Bool.false_eq_true, if_false, List.filter_cons, hb',
          Bool.not_false, if_true, List.cons_append, List.cons.injEq, true_and]
        exact dedupLast_append a b

/-- A list whose rows already carry pairwise distinct identity keys is
left unchanged by deduplication. -/
theorem dedupLast_eq_self :
    ∀ {l : List Record},
      List.Pairwise (fun a b => recordKey a ≠ recordKey b) l →
      dedupLast l = l
  | [], _ => rfl
  | r :: rs, h => by
    unfold dedupLast
    rw [List.pairwise_cons] at h
    have hk : keyedIn r rs = false :=
      keyedIn_eq_false.mpr (fun s hs he => h.1 s hs he.symm)
    rw [hk]
    simp only [Bool.false_eq_true, if_false]
    rw [dedupLast_eq_self h.2]

/-! ## Properties of `sortRecords` -/

theorem sortedKeys_nodup (l : List Record) : (sortedKeys l).Nodup :=
  (List.perm_insertionSort keyRel _).symm.nodup (List.nodup_dedup _)

theorem sortedKeys_sorted (l : List Record) :
    List.Sorted keyRel (sortedKeys l) :=
  List.sorted_insertionSort keyRel _

theorem mem_sortedKeys {l : List Record} {k : Option String × Option Nat} :
    k ∈ sortedKeys l ↔ ∃ r ∈ l, sortKey r = k := by
  unfold sortedKeys
  rw [(List.perm_insertionSort keyRel _).mem_iff, List.mem_dedup]
  simp [eq_comm]

theorem mem_keyGroup {l : List Record} {k : Option String × Option Nat}
    {r : Record} : r ∈ keyGroup l k ↔ r ∈ l ∧ sortKey r = k := by
  unfold keyGroup
  rw [List.mem_filter]
  simp

/-- Count of a row in the flatMap-of-groups construction over a
duplicate-free key list. -/
theorem count_flatMap_keyGroup [BEq Record] [LawfulBEq Record]
    (l : List Record) (x : Record) :
    ∀ K : List (Option String × Option Nat), K.Nodup →
    List.count x (K.flatMap (keyGroup l)) =
      if sortKey x ∈ K then List.count x l else 0
  | [], _ => by simp
  | k :: K, hK => by
    rw [List.nodup_cons] at hK
    rw [List.flatMap_cons, List.count_append,
      count_flatMap_keyGroup l x K hK.2]
    by_cases hk : sortKey x = k
    · subst hk
      unfold keyGroup
      rw [List.count_filter (by simp)]
      rw [if_neg hK.1, if_pos (List.mem_cons_self _ _)]
      omega
    · have h0 : List.count x (keyGroup l k) = 0 := by
        rw [List.count_eq_zero]
        intro hmem
        exact hk (mem_keyGroup.mp hmem).2
      rw [h0]
      by_cases hmem : sortKey x ∈ K
      · rw [if_pos hmem, if_pos (List.mem_cons_of_mem _ hmem)]
        omega
      · rw [if_neg hmem, if_neg (by simp [hk, hmem])]

/-- The sort is a permutation of its input. -/
theorem sortRecords_perm (l : List Record) : (sortRecords l).Perm l := by
  rw [List.perm_iff_count]
  intro x
  unfold sortRecords
  rw [@count_flatMap_keyGroup (@instBEqOfDecidableEq Record _) _ l x
    (sortedKeys l) (sortedKeys_nodup l)]
  by_cases h : sortKey x ∈ sortedKeys l
  · rw [if_pos h]
  · rw [if_neg h]
    have hnot : x ∉ l := fun hx => h (mem_sortedKeys.mpr ⟨x, hx, rfl⟩)
    exact (@List.count_eq_zero_of_not_mem Record
      (@instBEqOfDecidableEq Record _) (by infer_instance) x l hnot).symm

/-- Groups listed along a `keyLE`-sorted key list are `keyLE`-ordered. -/
theorem pairwise_flatMap_keyGroup (l : List Record) :
    ∀ K : List (Option String × Option Nat), List.Sorted keyRel K →
    List.Pairwise (fun r s => keyLE (sortKey r) (sortKey s) = true)
      (K.flatMap (keyGroup l))
  | [], _ => by simp
  | k :: K, hs => by
    rw [List.sorted_cons] at hs
    rw [List.flatMap_cons, List.pairwise_append]
    refine ⟨?_, pairwise_flatMap_keyGroup l K hs.2, ?_⟩
    · refine List.pairwise_of_forall_mem_list ?_
      intro x hx y hy
      rw [(mem_keyGroup.mp hx).2, (mem_keyGroup.mp hy).2]
      exact keyLE_refl k
    · intro x hx y hy
      obtain ⟨k2, hk2, hy2⟩ := List.mem_flatMap.mp hy
      rw [(mem_keyGroup.mp hx).2, (mem_keyGroup.mp hy2).2]
      exact hs.1 k2 hk2

/-- The output of the sort is ordered by the sort-key comparison. -/
theorem sortRecords_pairwise (l : List Record) :
    List.Pairwise (fun r s => keyLE (sortKey r) (sortKey s) = true)
      (sortRecords l) :=
  pairwise_flatMap_keyGroup l (sortedKeys l) (sortedKeys_sorted l)

/-! ## The normal form of a successful `save_data` -/

/-- A successful, file-writing `save_data` call is exactly the
concatenate-deduplicate-sort pipeline on the padded new rows, and requires
the maximal row width to match the column count. -/
theorem save_data_ok {existing : List Record} {newGames : List (List String)}
    {m : List Record}
    (h : save_data existing newGames = Except.ok (m, true)) :
    maxRowLen newGames = COLUMNS.length ∧
      m = sortRecords (dedupLast (existing ++ newGames.map padRow)) := by
  unfold save_data at h
  by_cases hne : newGames.isEmpty
  · rw [if_pos hne] at h
    simp at h
  · rw [if_neg hne] at h
    unfold buildDataFrame at h
    by_cases hw : maxRowLen newGames = COLUMNS.length
    · rw [if_pos hw] at h
      refine ⟨hw, ?_⟩
      by_cases hex : existing.isEmpty
      · have hexnil : existing = [] := List.isEmpty_iff.mp hex
        subst hexnil
        simp only [List.isEmpty_nil, if_true, Except.ok.injEq,
          Prod.mk.injEq, and_true] at h
        rw [← h, List.nil_append]
      · have hex' : existing.isEmpty = false := by simpa using hex
        simp only [hex', Bool.false_eq_true, if_false, Except.ok.injEq,
          Prod.mk.injEq, and_true] at h
        rw [← h]
    · rw [if_neg hw] at h
      simp at h

/-! ## Claims C2 and C3: the reconciler's dedup and sort invariants -/

/-- C2: a file-writing reconciliation produces a dataset in which no two
records share the identity key (Player, Date, Team, Opponent), and a
record belongs to the result exactly when it occurs somewhere in the
concatenation of the existing records and the padded new records with no
later occurrence of its identity key — on key conflicts exactly the
last-arriving record is kept. -/
theorem C2_reconciler_dedup {existing : List Record}
    {newGames : List (List String)} {m : List Record}
    (h : save_data existing newGames = Except.ok (m, true)) :
    List.Pairwise (fun a b => recordKey a ≠ recordKey b) m ∧
    (∀ r : Record, r ∈ m ↔
      ∃ l1 l2, existing ++ newGames.map padRow = l1 ++ r :: l2 ∧
        keyedIn r l2 = false) := by
  obtain ⟨-, rfl⟩ := save_data_ok h
  constructor
  · exact ((sortRecords_perm _).pairwise_iff (fun hxy => Ne.symm hxy)).mpr
      (dedupLast_pairwise _)
  · intro r
    rw [(sortRecords_perm _).mem_iff, mem_dedupLast]

/-- Concrete instance of C2: an existing record and a later-arriving new
record share the identity key; the merged dataset is duplicate-free and
the new record is the one kept (it occurs as the last of its key in the
concatenation). -/
theorem C2_reconciler_dedup_witness :
    List.Pairwise (fun a b => recordKey a ≠ recordKey b)
      (sortRecords (dedupLast
        ([padRow (wRow "A. Player" "1/5/2026" "BOS" "NYK" "10")] ++
          List.map padRow [wRow "A. Player" "1/5/2026" "BOS" "NYK" "20",
            wRow "A. Player" "1/7/2026" "BOS" "NYK" "30"]))) ∧
    padRow (wRow "A. Player" "1/5/2026" "BOS" "NYK" "20") ∈
      sortRecords (dedupLast
        ([padRow (wRow "A. Player" "1/5/2026" "BOS" "NYK" "10")] ++
          List.map padRow [wRow "A. Player" "1/5/2026" "BOS" "NYK" "20",
            wRow "A. Player" "1/7/2026" "BOS" "NYK" "30"])) := by
  have h := @C2_reconciler_dedup
    [padRow (wRow "A. Player" "1/5/2026" "BOS" "NYK" "10")]
    [wRow "A. Player" "1/5/2026" "BOS" "NYK" "20",
      wRow "A. Player" "1/7/2026" "BOS" "NYK" "30"] _ rfl
  refine ⟨h.1, (h.2 _).mpr ?_⟩
  exact ⟨[padRow (wRow "A. Player" "1/5/2026" "BOS" "NYK" "10")],
    [padRow (wRow "A. Player" "1/7/2026" "BOS" "NYK" "30")], rfl, by decide⟩

/-- C3: after a file-writing reconciliation the persisted dataset is
sorted with Player ascending and, within equal Player cells, parsed date
descending: for positions `i < j` with the same Player value, if the
earlier row's date fails to parse so does the later one, and when both
parse the later row's date is at most the earlier row's. -/
theorem C3_reconciler_sorted {existing : List Record}
    {newGames : List (List String)} {m : List Record}
    (h : save_data existing newGames = Except.ok (m, true)) :
    ∀ i j (hi : i < m.length) (hj : j < m.length), i < j →
      playerCell m[i] = playerCell m[j] →
      ((dateKey m[i] = none → dateKey m[j] = none) ∧
       (∀ d1 d2, dateKey m[i] = some d1 → dateKey m[j] = some d2 → d2 ≤ d1)) := by
  obtain ⟨-, hm⟩ := save_data_ok h
  have hp := sortRecords_pairwise (dedupLast (existing ++ newGames.map padRow))
  rw [← hm] at hp
  rw [List.pairwise_iff_getElem] at hp
  intro i j hi hj hij hpl
  have hle := hp i j hi hj hij
  simp only [keyLE, sortKey] at hle
  rw [if_pos hpl] at hle
  constructor
  · intro hnone
    rw [hnone] at hle
    cases hd : dateKey m[j] with
    | none => rfl
    | some d2 => rw [hd] at hle; simp [optDateLE] at hle
  · intro d1 d2 hd1 hd2
    rw [hd1, hd2] at hle
    simpa [optDateLE] using hle

set_option maxRecDepth 2000 in
/-- Concrete instance of C3: two new rows for one player arrive in
ascending date order; in the persisted dataset the later date precedes,
and the theorem instantiated at positions 0 and 1 yields the date bound. -/
theorem C3_reconciler_sorted_witness :
    save_data [] [wRow "A. Player" "1/5/2026" "BOS" "NYK" "10",
        wRow "A. Player" "1/7/2026" "BOS" "NYK" "20"] =
      Except.ok ([padRow (wRow "A. Player" "1/7/2026" "BOS" "NYK" "20"),
        padRow (wRow "A. Player" "1/5/2026" "BOS" "NYK" "10")], true) ∧
    (20260105 : Nat) ≤ 20260107 := by
  refine ⟨rfl, ?_⟩
  exact (@C3_reconciler_sorted []
    [wRow "A. Player" "1/5/2026" "BOS" "NYK" "10",
      wRow "A. Player" "1/7/2026" "BOS" "NYK" "20"]
    [padRow (wRow "A. Player" "1/7/2026" "BOS" "NYK" "20"),
      padRow (wRow "A. Player" "1/5/2026" "BOS" "NYK" "10")]
    (by rfl) 0 1 (by decide) (by decide) (by decide) (by decide)).2
    20260107 20260105 (by decide) (by decide)

/-! ## The row scan: provenance of emitted records -/

/-- Every record the row scan emits either was already accumulated or
comes from a readable row with at least 3 cells, is that row's cells
prefixed with the player name and the season, and — when a last-date
boundary is active — has a date that does not parse at or below the
boundary. -/
theorem mem_scanRowsAux {pn : String} {ld : Option Nat} :
    ∀ (rows : List RowRead) (fd : Option Nat) (dsc : Option Bool)
      (acc : List (List String)) (g : List String),
      g ∈ scanRowsAux pn ld rows fd dsc acc →
      g ∈ acc ∨
      ∃ cells, Except.ok cells ∈ rows ∧ 3 ≤ cells.length ∧
        g = pn :: SEASON :: cells ∧
        ∀ ld0 gd, ld = some ld0 → parse_game_date cells.headI = some gd →
          ld0 < gd
  | [], _, _, _, g, hg => Or.inl hg
  | Except.error e :: rest, fd, dsc, acc, g, hg => by
    rcases mem_scanRowsAux rest fd dsc acc g hg with h | ⟨cells, hmem, hrest⟩
    · exact Or.inl h
    · exact Or.inr ⟨cells, List.mem_cons_of_mem _ hmem, hrest⟩
  | Except.ok cellData :: rest, fd, dsc, acc, g, hg => by
    rw [scanRowsAux] at hg
    by_cases hshort : cellData.isEmpty ∨ cellData.length < 3
    · rw [if_pos hshort] at hg
      rcases mem_scanRowsAux rest fd dsc acc g hg with h | ⟨cells, hmem, hrest⟩
      · exact Or.inl h
      · exact Or.inr ⟨cells, List.mem_cons_of_mem _ hmem, hrest⟩
    · rw [if_neg hshort] at hg
      have h3 : 3 ≤ cellData.length := by
        rcases Nat.lt_or_ge cellData.length 3 with h | h
        · exact absurd (Or.inr h) hshort
        · exact h
      cases hld : ld with
      | none =>
        subst hld
        simp only [Option.isSome_none, Bool.false_eq_true, if_false] at hg
        rcases mem_scanRowsAux rest fd dsc _ g hg with h | ⟨cells, hmem, hrest⟩
        · rcases List.mem_append.mp h with h | h
          · exact Or.inl h
          · refine Or.inr ⟨cellData, List.mem_cons_self _ _, h3, ?_, ?_⟩
            · simpa using h
            · intro ld0 gd hld0
              exact absurd hld0 (by simp)
        · exact Or.inr ⟨cells, List.mem_cons_of_mem _ hmem, hrest⟩
      | some ld0 =>
        subst hld
        simp only [Option.isSome_some, if_true] at hg
        cases hp : parse_game_date cellData.headI with
        | none =>
          rw [hp] at hg
          rcases mem_scanRowsAux rest fd dsc _ g hg with h | ⟨cells, hmem, hrest⟩
          · rcases List.mem_append.mp h with h | h
            · exact Or.inl h
            · refine Or.inr ⟨cellData, List.mem_cons_self _ _, h3, ?_, ?_⟩
              · simpa using h
              · intro ld1 gd hld1 hgd
                rw [hgd] at hp
                exact absurd hp (by simp)
          · exact Or.inr ⟨cells, List.mem_cons_of_mem _ hmem, hrest⟩
        | some gd =>
          rw [hp] at hg
          simp only [] at hg
          by_cases hgl : gd ≤ ld0
          · rw [if_pos hgl] at hg
            cases fd with
            | none =>
              simp only [] at hg
              by_cases hbreak : dsc = some true
              · rw [if_pos hbreak] at hg
                exact Or.inl hg
              · rw [if_neg hbreak] at hg
                rcases mem_scanRowsAux rest _ _ acc g hg with h |
                  ⟨cells, hmem, hrest⟩
                · exact Or.inl h
                · exact Or.inr ⟨cells, List.mem_cons_of_mem _ hmem, hrest⟩
            | some fd0 =>
              cases dsc with
              | none =>
                simp only [] at hg
                by_cases hbreak :
                    (some (decide (gd ≤ fd0)) : Option Bool) = some true
                · rw [if_pos hbreak] at hg
                  exact Or.inl hg
                · rw [if_neg hbreak] at hg
                  rcases mem_scanRowsAux rest _ _ acc g hg with h |
                    ⟨cells, hmem, hrest⟩
                  · exact Or.inl h
                  · exact Or.inr ⟨cells, List.mem_cons_of_mem _ hmem, hrest⟩
              | some b =>
                simp only [] at hg
                by_cases hbreak : (some b : Option Bool) = some true
                · rw [if_pos hbreak] at hg
                  exact Or.inl hg
                · rw [if_neg hbreak] at hg
                  rcases mem_scanRowsAux rest _ _ acc g hg with h |
                    ⟨cells, hmem, hrest⟩
                  · exact Or.inl h
                  · exact Or.inr ⟨cells, List.mem_cons_of_mem _ hmem, hrest⟩
          · rw [if_neg hgl] at hg
            rcases mem_scanRowsAux rest _ _ _ g hg with h | ⟨cells, hmem, hrest⟩
            · rcases List.mem_append.mp h with h | h
              · exact Or.inl h
              · refine Or.inr ⟨cellData, List.mem_cons_self _ _, h3, ?_, ?_⟩
                · simpa using h
                · intro ld1 gd1 hld1 hgd1
                  rw [hgd1] at hp
                  injection hp with h0
                  injection hld1 with h1
                  omega
            · exact Or.inr ⟨cells, List.mem_cons_of_mem _ hmem, hrest⟩

/-- Provenance statement at the top level of the scan: each returned
record comes from a readable, well-formed row that the boundary filter
admitted. -/
theorem mem_scanRows {pn : String} {ld : Option Nat} {rows : List RowRead}
    {g : List String} (hg : g ∈ scanRows pn ld rows) :
    ∃ cells, Except.ok cells ∈ rows ∧ 3 ≤ cells.length ∧
      g = pn :: SEASON :: cells ∧
      ∀ ld0 gd, ld = some ld0 → parse_game_date cells.headI = some gd →
        ld0 < gd := by
  rcases mem_scanRowsAux rows none none [] g hg with h | h
  · exact absurd h (List.not_mem_nil g)
  · exact h

/-! ## Claim C9: the width requirement of the DataFrame constructor -/

/-- C9 counterexample: a new-record batch mixing a 28-field row with a
1-field row is merged without an exception — pandas pads the short row to
the maximal width — refuting the claim that `save_data` raises whenever
any record's field count differs from 28. -/
theorem C9_counterexample :
    (save_data [] [wRow "A. Player" "1/5/2026" "BOS" "NYK" "10",
        ["x"]]).isOk = true ∧
    (["x"] : List String).length ≠ 28 :=
  ⟨rfl, by decide⟩

/-- Amended C9: a non-empty merge succeeds exactly when the maximal field
count among the new records equals 28 (shorter rows are padded with
missing values; when the maximum differs from 28 the DataFrame constructor
raises and no file is written), while the Detail Record Fetcher only
guarantees that each record it produces has at least 5 fields. -/
theorem C9_width_amended :
    (∀ (existing : List Record) (newGames : List (List String)),
      newGames ≠ [] →
      ((save_data existing newGames).isOk = true ↔
        maxRowLen newGames = 28)) ∧
    (∀ pn ld rows g, g ∈ scanRows pn ld rows → 5 ≤ g.length) := by
  constructor
  · intro existing newGames hne
    have hni : newGames.isEmpty = false := by
      simpa [List.isEmpty_iff] using hne
    unfold save_data
    rw [hni]
    simp only [Bool.false_eq_true, if_false]
    unfold buildDataFrame
    have hC : COLUMNS.length = 28 := rfl
    by_cases hw : maxRowLen newGames = COLUMNS.length
    · rw [if_pos hw]
      simp only [Except.isOk, Except.toBool]
      rw [hC] at hw
      simp [hw]
    · rw [if_neg hw]
      simp only [Except.isOk, Except.toBool]
      rw [hC] at hw
      simp [hw]
  · intro pn ld rows g hg
    obtain ⟨cells, -, h3, rfl, -⟩ := mem_scanRows hg
    simp only [List.length_cons]
    omega

/-- Concrete instance of C9 (amended): a single full-width row merges
successfully, and a scanned 3-cell row yields a 5-field record. -/
theorem C9_width_amended_witness :
    (save_data [] [wRow "A. Player" "1/5/2026" "BOS" "NYK" "10"]).isOk
        = true ∧
    5 ≤ (["P", "2025-2026", "a", "b", "c"] : List String).length := by
  constructor
  · exact (C9_width_amended.1 []
      [wRow "A. Player" "1/5/2026" "BOS" "NYK" "10"] (by decide)).mpr
      (by decide)
  · exact C9_width_amended.2 "P" none [Except.ok ["a", "b", "c"]]
      ["P", "2025-2026", "a", "b", "c"] (by decide)

/-! ## Claim C10: deduplication compares raw date text -/

/-- C10: deduplication compares the raw text of the key cells, not parsed
values: two 28-field records agreeing on Player, Team and Opponent whose
Date cells are textually distinct both survive reconciliation as separate
rows, even when both date strings parse to the same calendar date. -/
theorem C10_raw_text_dedup (a b : List String) (sa sb : String) (d : Nat)
    (ha : a.length = 28) (hb : b.length = 28)
    (hp : a[0]? = b[0]?) (ht : a[3]? = b[3]?) (ho : a[4]? = b[4]?)
    (hda : a[2]? = some sa) (hdb : b[2]? = some sb) (hne : sa ≠ sb)
    (hpa : parse_game_date sa = some d)
    (hpb : parse_game_date sb = some d) :
    ∀ m, save_data [] [a, b] = Except.ok (m, true) →
      padRow a ∈ m ∧ padRow b ∈ m ∧ m.length = 2 := by
  intro m hm
  obtain ⟨-, hmm⟩ := save_data_ok hm
  have hC : COLUMNS.length = 28 := rfl
  have hA : padRow a = a.map some := by
    unfold padRow
    rw [hC, ha]
    simp
  have hB : padRow b = b.map some := by
    unfold padRow
    rw [hC, hb]
    simp
  have hkey : recordKey (padRow a) ≠ recordKey (padRow b) := by
    rw [hA, hB]
    intro h
    have h2 := congrArg (fun t => t.2.1) h
    simp only [recordKey] at h2
    rw [List.getElem?_map, List.getElem?_map, hda, hdb] at h2
    simp at h2
    exact hne h2
  have hpw : List.Pairwise (fun x y => recordKey x ≠ recordKey y)
      [padRow a, padRow b] := by
    refine List.Pairwise.cons ?_ (List.pairwise_singleton _ _)
    intro x hx
    rw [List.mem_singleton] at hx
    subst hx
    exact hkey
  have hded : dedupLast ([] ++ List.map padRow [a, b]) =
      [padRow a, padRow b] := by
    simp only [List.nil_append, List.map_cons, List.map_nil]
    exact dedupLast_eq_self hpw
  rw [hmm, hded]
  have hperm := sortRecords_perm [padRow a, padRow b]
  refine ⟨hperm.mem_iff.mpr (by simp), hperm.mem_iff.mpr (by simp), ?_⟩
  rw [hperm.length_eq]
  rfl

/-- Concrete instance of C10: `"1/25/2026"` and `"01/25/2026"` are
textually distinct but parse to the same date; both records survive the
merge as separate rows. -/
theorem C10_raw_text_dedup_witness :
    padRow (wRow "A. Player" "1/25/2026" "BOS" "NYK" "10") ∈
      ([padRow (wRow "A. Player" "1/25/2026" "BOS" "NYK" "10"),
        padRow (wRow "A. Player" "01/25/2026" "BOS" "NYK" "10")] :
        List Record) ∧
    padRow (wRow "A. Player" "01/25/2026" "BOS" "NYK" "10") ∈
      ([padRow (wRow "A. Player" "1/25/2026" "BOS" "NYK" "10"),
        padRow (wRow "A. Player" "01/25/2026" "BOS" "NYK" "10")] :
        List Record) ∧
    ([padRow (wRow "A. Player" "1/25/2026" "BOS" "NYK" "10"),
      padRow (wRow "A. Player" "01/25/2026" "BOS" "NYK" "10")] :
      List Record).length = 2 :=
  C10_raw_text_dedup
    (wRow "A. Player" "1/25/2026" "BOS" "NYK" "10")
    (wRow "A. Player" "01/25/2026" "BOS" "NYK" "10")
    "1/25/2026" "01/25/2026" 20260125 (by decide) (by decide)
    rfl rfl rfl rfl rfl (by decide) (by decide) (by decide)
    [padRow (wRow "A. Player" "1/25/2026" "BOS" "NYK" "10"),
     padRow (wRow "A. Player" "01/25/2026" "BOS" "NYK" "10")] (by rfl)

/-! ## Claim C1: the date-boundary scan -/

/-- Once the scan has inferred a non-descending direction it never breaks:
every remaining row is kept or dropped individually by the boundary
filter. -/
theorem scanRowsAux_not_descending {pn : String} {ld : Nat} :
    ∀ (rows : List RowRead) (fd : Nat) (acc : List (List String)),
      scanRowsAux pn (some ld) rows (some fd) (some false) acc =
        acc ++ keptRows pn ld rows
  | [], fd, acc => by simp [scanRowsAux, keptRows]
  | Except.error e :: rest, fd, acc => by
    rw [scanRowsAux]
    rw [scanRowsAux_not_descending rest fd acc]
    simp [keptRows, List.filterMap_cons]
  | Except.ok cells :: rest, fd, acc => by
    rw [scanRowsAux]
    by_cases hshort : cells.isEmpty ∨ cells.length < 3
    · rw [if_pos hshort]
      rw [scanRowsAux_not_descending rest fd acc]
      have hsv : rowSurvives ld cells = false := by
        have hlen : cells.length < 3 := by
          rcases hshort with h | h
          · rw [List.isEmpty_iff] at h
            simp [h]
          · exact h
        unfold rowSurvives
        have : ¬ 3 ≤ cells.length := by omega
        simp [this]
      simp [keptRows, List.filterMap_cons, hsv]
    · rw [if_neg hshort]
      have hlen : 3 ≤ cells.length := by
        rcases Nat.lt_or_ge cells.length 3 with h | h
        · exact absurd (Or.inr h) hshort
        · exact h
      simp only [Option.isSome_some, if_true]
      cases hp : parse_game_date cells.headI with
      | none =>
        simp only []
        rw [scanRowsAux_not_descending rest fd _]
        have hsv : rowSurvives ld cells = true := by
          unfold rowSurvives
          rw [hp]
          simp [hlen]
        simp [keptRows, List.filterMap_cons, hsv]
      | some gd =>
        simp only []
        by_cases hgl : gd ≤ ld
        · rw [if_pos hgl]
          have hne : (some false : Option Bool) ≠ some true := by decide
          rw [if_neg hne]
          rw [scanRowsAux_not_descending rest fd acc]
          have hsv : rowSurvives ld cells = false := by
            unfold rowSurvives
            rw [hp]
            simp [hlen]
            omega
          simp [keptRows, List.filterMap_cons, hsv]
        · rw [if_neg hgl]
          rw [scanRowsAux_not_descending rest fd _]
          have hsv : rowSurvives ld cells = true := by
            unfold rowSurvives
            rw [hp]
            simp [hlen]
            omega
          simp [keptRows, List.filterMap_cons, hsv]

/-- C1: (a) every record returned by a boundary scan comes from a
readable row with at least 3 cells whose date does not parse at or below
the boundary — rows whose date parses to at most `last_date` are excluded;
(b) on a strictly descending row sequence whose 3rd row carries the
boundary date, the scan breaks early and returns exactly the first 2 rows,
whatever follows; (c) on a strictly ascending sequence with the same
boundary the scan never breaks: it continues past the match and filters
every remaining row individually. -/
theorem C1_boundary_scan :
    (∀ pn ld rows g, g ∈ scanRows pn (some ld) rows →
      ∃ cells, Except.ok cells ∈ rows ∧ 3 ≤ cells.length ∧
        g = pn :: SEASON :: cells ∧
        ∀ gd, parse_game_date cells.headI = some gd → ld < gd) ∧
    (∀ pn (c1 c2 c3 : List String) rest (d1 d2 d3 : Nat),
      3 ≤ c1.length → 3 ≤ c2.length → 3 ≤ c3.length →
      parse_game_date c1.headI = some d1 →
      parse_game_date c2.headI = some d2 →
      parse_game_date c3.headI = some d3 →
      d2 < d1 → d3 < d2 →
      scanRows pn (some d3)
        (Except.ok c1 :: Except.ok c2 :: Except.ok c3 :: rest) =
        [pn :: SEASON :: c1, pn :: SEASON :: c2]) ∧
    (∀ pn (c1 c2 c3 : List String) rest (d1 d2 d3 : Nat),
      3 ≤ c1.length → 3 ≤ c2.length → 3 ≤ c3.length →
      parse_game_date c1.headI = some d1 →
      parse_game_date c2.headI = some d2 →
      parse_game_date c3.headI = some d3 →
      d1 < d2 → d2 < d3 →
      scanRows pn (some d3)
        (Except.ok c1 :: Except.ok c2 :: Except.ok c3 :: rest) =
        keptRows pn d3 rest) := by
  refine ⟨?_, ?_, ?_⟩
  · intro pn ld rows g hg
    obtain ⟨cells, hmem, h3, hgc, hdc⟩ := mem_scanRows hg
    exact ⟨cells, hmem, h3, hgc, fun gd hgd => hdc ld gd rfl hgd⟩
  · intro pn c1 c2 c3 rest d1 d2 d3 h1 h2 h3 hp1 hp2 hp3 h21 h32
    have hs1 : ¬(c1.isEmpty = true ∨ c1.length < 3) := by
      rintro (h | h)
      · rw [List.isEmpty_iff] at h
        rw [h] at h1
        simp at h1
      · omega
    have hs2 : ¬(c2.isEmpty = true ∨ c2.length < 3) := by
      rintro (h | h)
      · rw [List.isEmpty_iff] at h
        rw [h] at h2
        simp at h2
      · omega
    have hs3 : ¬(c3.isEmpty = true ∨ c3.length < 3) := by
      rintro (h | h)
      · rw [List.isEmpty_iff] at h
        rw [h] at h3
        simp at h3
      · omega
    unfold scanRows
    rw [scanRowsAux, if_neg hs1]
    simp only [Option.isSome_some, if_true, hp1]
    rw [if_neg (by omega : ¬ d1 ≤ d3)]
    simp only [List.nil_append]
    rw [scanRowsAux, if_neg hs2]
    simp only [Option.isSome_some, if_true, hp2]
    rw [if_neg (by omega : ¬ d2 ≤ d3)]
    rw [scanRowsAux, if_neg hs3]
    simp only [Option.isSome_some, if_true, hp3]
    rw [if_pos (by omega : d3 ≤ d3)]
    rw [if_pos (show ((some d1, some (decide (d2 ≤ d1))) :
      Option Nat × Option Bool).2 = some true by simp; omega)]
    rfl
  · intro pn c1 c2 c3 rest d1 d2 d3 h1 h2 h3 hp1 hp2 hp3 h12 h23
    have hs1 : ¬(c1.isEmpty = true ∨ c1.length < 3) := by
      rintro (h | h)
      · rw [List.isEmpty_iff] at h
        rw [h] at h1
        simp at h1
      · omega
    have hs2 : ¬(c2.isEmpty = true ∨ c2.length < 3) := by
      rintro (h | h)
      · rw [List.isEmpty_iff] at h
        rw [h] at h2
        simp at h2
      · omega
    have hs3 : ¬(c3.isEmpty = true ∨ c3.length < 3) := by
      rintro (h | h)
      · rw [List.isEmpty_iff] at h
        rw [h] at h3
        simp at h3
      · omega
    unfold scanRows
    rw [scanRowsAux, if_neg hs1]
    simp only [Option.isSome_some, if_true, hp1]
    rw [if_pos (by omega : d1 ≤ d3)]
    rw [if_neg (by simp : ((some d1, (none : Option Bool)) :
      Option Nat × Option Bool).2 = some true → False)]
    rw [scanRowsAux, if_neg hs2]
    simp only [Option.isSome_some, if_true, hp2]
    rw [if_pos (by omega : d2 ≤ d3)]
    rw [if_neg (by simp [Nat.not_le.mpr h12] :
      ((some d1, some (decide (d2 ≤ d1))) :
        Option Nat × Option Bool).2 = some true → False)]
    rw [scanRowsAux, if_neg hs3]
    simp only [Option.isSome_some, if_true, hp3]
    rw [if_pos (by omega : d3 ≤ d3)]
    rw [if_neg (by simp [Nat.not_le.mpr h12] :
      ((some d1, some (decide (d2 ≤ d1))) :
        Option Nat × Option Bool).2 = some true → False)]
    rw [decide_eq_false (Nat.not_le.mpr h12)]
    rw [scanRowsAux_not_descending rest d1 []]
    simp

/-- Concrete instance of C1: on a descending 4-row table with the boundary
at the 3rd row the scan returns exactly the first 2 rows; a record whose
date lies at the boundary can never be returned; on an ascending table
with the same boundary the scan filters the suffix row-by-row, keeping a
late out-of-order new row and dropping a late already-known row. -/
theorem C1_boundary_scan_witness :
    scanRows "P" (some 20260110)
      [Except.ok ["1/20/2026", "x", "y"], Except.ok ["1/15/2026", "x", "y"],
       Except.ok ["1/10/2026", "x", "y"], Except.ok ["1/5/2026", "x", "y"]] =
      [["P", "2025-2026", "1/20/2026", "x", "y"],
       ["P", "2025-2026", "1/15/2026", "x", "y"]] ∧
    ¬ (["P", "2025-2026", "1/5/2026", "x", "y"] ∈
        scanRows "P" (some 20260110)
          [Except.ok ["1/20/2026", "x", "y"],
           Except.ok ["1/15/2026", "x", "y"],
           Except.ok ["1/10/2026", "x", "y"],
           Except.ok ["1/5/2026", "x", "y"]]) ∧
    scanRows "P" (some 20260110)
      [Except.ok ["1/1/2026", "x", "y"], Except.ok ["1/5/2026", "x", "y"],
       Except.ok ["1/10/2026", "x", "y"], Except.ok ["1/3/2026", "x", "y"],
       Except.ok ["1/30/2026", "x", "y"]] =
      keptRows "P" 20260110
        [Except.ok ["1/3/2026", "x", "y"],
         Except.ok ["1/30/2026", "x", "y"]] ∧
    keptRows "P" 20260110
      [Except.ok ["1/3/2026", "x", "y"], Except.ok ["1/30/2026", "x", "y"]] =
      [["P", "2025-2026", "1/30/2026", "x", "y"]] := by
  refine ⟨?_, ?_, ?_, ?_⟩
  · exact C1_boundary_scan.2.1 "P" ["1/20/2026", "x", "y"]
      ["1/15/2026", "x", "y"] ["1/10/2026", "x", "y"]
      [Except.ok ["1/5/2026", "x", "y"]] 20260120 20260115 20260110
      (by decide) (by decide) (by decide) (by decide) (by decide) (by decide)
      (by decide) (by decide)
  · intro hmem
    obtain ⟨cells, -, -, hg, hdc⟩ :=
      C1_boundary_scan.1 "P" 20260110 _ _ hmem
    have hc : cells = ["1/5/2026", "x", "y"] := by
      have h0 := hg.symm
      simp at h0
      exact h0.2
    subst hc
    have := hdc 20260105 (by decide)
    omega
  · exact C1_boundary_scan.2.2 "P" ["1/1/2026", "x", "y"]
      ["1/5/2026", "x", "y"] ["1/10/2026", "x", "y"]
      [Except.ok ["1/3/2026", "x", "y"], Except.ok ["1/30/2026", "x", "y"]]
      20260101 20260105 20260110
      (by decide) (by decide) (by decide) (by decide) (by decide) (by decide)
      (by decide) (by decide)
  · rfl

/-! ## Claim C6: the detail fetcher absorbs all errors -/

/-- C6: `scrape_player_games` never propagates an exception: whatever the
outcomes of navigation, waits, dropdown interaction and row reads, it
returns a plain list — the empty list when the body raised, and otherwise
exactly the row-scan result for the resolved player name. -/
theorem C6_never_raises (env : ScrapeEnv) (pn : String) (ld : Option Nat) :
    scrape_player_games env pn ld = [] ∨
    scrape_player_games env pn ld =
      scanRows (resolvePlayerName env.pageName pn) ld env.rows := by
  unfold scrape_player_games
  cases hb : scrape_body env pn ld with
  | error e => exact Or.inl rfl
  | ok gs =>
    right
    unfold scrape_body at hb
    cases hn : env.navigate with
    | error e =>
      rw [hn] at hb
      simp only [] at hb
      by_cases htime : containsTimeout e
      · rw [if_pos htime] at hb
        simp only [bind, Except.bind, pure, Except.pure] at hb
        cases ht : env.tableWait with
        | error e2 =>
          rw [ht] at hb
          simp at hb
        | ok u =>
          rw [ht] at hb
          simp only [bind, Except.bind, pure, Except.pure] at hb
          cases hd : dropdownPhase env with
          | error e2 =>
            rw [hd] at hb
            simp at hb
          | ok u2 =>
            rw [hd] at hb
            simp only [bind, Except.bind, pure, Except.pure] at hb
            cases hw : env.tbodyWait with
            | error e2 =>
              rw [hw] at hb
              simp at hb
            | ok u3 =>
              rw [hw] at hb
              simp only [bind, Except.bind, pure, Except.pure,
                Except.ok.injEq] at hb
              exact hb.symm
      · rw [if_neg htime] at hb
        simp only [throw, throwThe, MonadExceptOf.throw, bind, Except.bind] at hb
        simp at hb
    | ok u0 =>
      rw [hn] at hb
      simp only [] at hb
      simp only [bind, Except.bind, pure, Except.pure] at hb
      cases ht : env.tableWait with
      | error e2 =>
        rw [ht] at hb
        simp at hb
      | ok u =>
        rw [ht] at hb
        simp only [bind, Except.bind, pure, Except.pure] at hb
        cases hd : dropdownPhase env with
        | error e2 =>
          rw [hd] at hb
          simp at hb
        | ok u2 =>
          rw [hd] at hb
          simp only [bind, Except.bind, pure, Except.pure] at hb
          cases hw : env.tbodyWait with
          | error e2 =>
            rw [hw] at hb
            simp at hb
          | ok u3 =>
            rw [hw] at hb
            simp only [bind, Except.bind, pure, Except.pure,
              Except.ok.injEq] at hb
            exact hb.symm

/-! ## Claim C4: idempotence of the reconciler -/

theorem keyedIn_of_mem {r : Record} {R : List Record} (h : r ∈ R) :
    keyedIn r R = true := by
  unfold keyedIn
  rw [List.any_eq_true]
  exact ⟨r, h, by simp⟩

theorem flatMap_nil_of_forall {α : Type _} {β : Type _} :
    ∀ (K : List α) (f : α → List β), (∀ x ∈ K, f x = []) → K.flatMap f = []
  | [], _, _ => rfl
  | a :: K, f, h => by
    rw [List.flatMap_cons, h a (List.mem_cons_self a K), List.nil_append]
    exact flatMap_nil_of_forall K f (fun x hx => h x (List.mem_cons_of_mem _ hx))

/-- A flatMap over a duplicate-free list collapses to a single piece when
every other piece is empty. -/
theorem flatMap_single {α : Type _} {β : Type _} [DecidableEq α] :
    ∀ (K : List α), K.Nodup → ∀ k : α, k ∈ K → ∀ f : α → List β,
      (∀ k2 ∈ K, k2 ≠ k → f k2 = []) → K.flatMap f = f k
  | [], _, k, hk, _, _ => absurd hk (List.not_mem_nil k)
  | a :: K, hK, k, hk, f, hf => by
    rw [List.nodup_cons] at hK
    rw [List.flatMap_cons]
    by_cases hak : a = k
    · subst hak
      rw [flatMap_nil_of_forall K f
        (fun k2 hk2 => hf k2 (List.mem_cons_of_mem _ hk2)
          (fun he => hK.1 (he ▸ hk2))), List.append_nil]
    · rw [hf a (List.mem_cons_self a K) hak, List.nil_append]
      rcases List.mem_cons.mp hk with h | h
      · exact absurd h.symm hak
      · exact flatMap_single K hK.2 k h f
          (fun k2 hk2 hne => hf k2 (List.mem_cons_of_mem _ hk2) hne)

/-- Permutations of record lists have the same sorted key list. -/
theorem sortedKeys_perm_eq {l1 l2 : List Record} (h : l1.Perm l2) :
    sortedKeys l1 = sortedKeys l2 := by
  refine List.eq_of_perm_of_sorted ?_ (sortedKeys_sorted l1)
    (sortedKeys_sorted l2)
  unfold sortedKeys
  exact (List.perm_insertionSort keyRel _).trans
    (((h.map sortKey).dedup).trans (List.perm_insertionSort keyRel _).symm)

/-- Filtering a sorted record list down to one sort key gives the same
rows as filtering the unsorted input, for any extra row predicate. -/
theorem sortRecords_filter_filter (D : List Record) (P : Record → Bool)
    (k : Option String × Option Nat) :
    List.filter (fun r => decide (sortKey r = k))
        (List.filter P (sortRecords D)) =
      List.filter (fun r => decide (sortKey r = k)) (List.filter P D) := by
  unfold sortRecords keyGroup
  rw [List.filter_flatMap, List.filter_flatMap]
  by_cases hk : k ∈ sortedKeys D
  · have hmain := flatMap_single (sortedKeys D) (sortedKeys_nodup D) k hk
      (fun k2 => List.filter (fun r => decide (sortKey r = k))
        (List.filter P (List.filter (fun r => decide (sortKey r = k2)) D)))
      (by
        intro k2 hk2 hne
        simp only []
        rw [List.filter_filter, List.filter_filter]
        refine List.filter_eq_nil_iff.mpr ?_
        intro a ha hcontra
        simp only [Bool.and_eq_true, decide_eq_true_eq] at hcontra
        have h1 : sortKey a = k := by tauto
        have h2 : sortKey a = k2 := by tauto
        exact hne (h2.symm.trans h1))
    rw [hmain]
    beta_reduce
    rw [List.filter_filter, List.filter_filter, List.filter_filter]
    refine List.filter_congr ?_
    intro a ha
    by_cases hsk : sortKey a = k
    · simp [hsk]
    · simp [hsk]
  · have hnil := flatMap_nil_of_forall (sortedKeys D)
      (fun k2 => List.filter (fun r => decide (sortKey r = k))
        (List.filter P (List.filter (fun r => decide (sortKey r = k2)) D)))
      (by
        intro k2 hk2
        simp only []
        rw [List.filter_filter, List.filter_filter]
        refine List.filter_eq_nil_iff.mpr ?_
        intro a ha hcontra
        simp only [Bool.and_eq_true, decide_eq_true_eq] at hcontra
        have h1 : sortKey a = k := by tauto
        exact hk (mem_sortedKeys.mpr ⟨a, ha, h1⟩))
    rw [hnil]
    symm
    rw [List.filter_filter]
    refine List.filter_eq_nil_iff.mpr ?_
    intro a ha hcontra
    simp only [Bool.and_eq_true, decide_eq_true_eq] at hcontra
    have h1 : sortKey a = k := by tauto
    exact hk (mem_sortedKeys.mpr ⟨a, ha, h1⟩)

/-- Re-merging the same padded rows into the already-merged dataset
reproduces it exactly. -/
theorem pipeline_idem (existing R : List Record) :
    sortRecords (dedupLast (sortRecords (dedupLast (existing ++ R)) ++ R)) =
      sortRecords (dedupLast (existing ++ R)) := by
  have hD1 := dedupLast_append existing R
  generalize hm1 : sortRecords (dedupLast (existing ++ R)) = m1
  have hpw1 : List.Pairwise (fun a b => recordKey a ≠ recordKey b) m1 := by
    rw [← hm1]
    exact ((sortRecords_perm _).pairwise_iff (fun hxy => Ne.symm hxy)).mpr
      (dedupLast_pairwise _)
  have hdm1 : dedupLast m1 = m1 := dedupLast_eq_self hpw1
  have hD2 : dedupLast (m1 ++ R) =
      m1.filter (fun r => !keyedIn r R) ++ dedupLast R := by
    rw [dedupLast_append, hdm1]
  have hNP : (dedupLast R).filter (fun r => !keyedIn r R) = [] := by
    refine List.filter_eq_nil_iff.mpr ?_
    intro r hr
    have hrR : r ∈ R := (dedupLast_sublist R).subset hr
    simp [keyedIn_of_mem hrR]
  have hFP : ((dedupLast existing).filter (fun r => !keyedIn r R)).filter
      (fun r => !keyedIn r R) =
      (dedupLast existing).filter (fun r => !keyedIn r R) := by
    rw [List.filter_filter]
    exact List.filter_congr (fun x _hx => Bool.and_self _)
  have hD1P : (dedupLast (existing ++ R)).filter (fun r => !keyedIn r R) =
      (dedupLast existing).filter (fun r => !keyedIn r R) := by
    rw [hD1, List.filter_append, hNP, hFP, List.append_nil]
  have hfil : (m1.filter (fun r => !keyedIn r R)).Perm
      ((dedupLast (existing ++ R)).filter (fun r => !keyedIn r R)) := by
    rw [← hm1]
    exact (sortRecords_perm _).filter _
  have hD2perm : (dedupLast (m1 ++ R)).Perm (dedupLast (existing ++ R)) := by
    rw [hD2]
    have h1 := hfil.append_right (dedupLast R)
    rw [hD1P] at h1
    rw [hD1]
    exact h1
  have hK := sortedKeys_perm_eq hD2perm
  show sortRecords (dedupLast (m1 ++ R)) = m1
  conv_rhs => rw [← hm1]
  unfold sortRecords
  rw [hK]
  refine List.flatMap_congr ?_
  intro k hk
  unfold keyGroup
  rw [hD2, List.filter_append]
  have hstep : List.filter (fun r => decide (sortKey r = k))
      (List.filter (fun r => !keyedIn r R) m1) =
      List.filter (fun r => decide (sortKey r = k))
        ((dedupLast existing).filter (fun r => !keyedIn r R)) := by
    rw [← hm1, sortRecords_filter_filter, hD1P]
  rw [hstep, hD1, List.filter_append]

/-- C4: the reconciler is idempotent — merging an empty new-record list
returns the existing dataset unchanged with no write performed, and
re-merging the same new-record list into the merged result reproduces the
merged result exactly. -/
theorem C4_reconciler_idempotent :
    (∀ existing : List Record,
      save_data existing [] = Except.ok (existing, false)) ∧
    (∀ (existing m : List Record) (newGames : List (List String)),
      save_data existing newGames = Except.ok (m, true) →
      save_data m newGames = Except.ok (m, true)) := by
  constructor
  · intro existing
    rfl
  · intro existing m newGames h
    obtain ⟨hw, hm⟩ := save_data_ok h
    have hne : newGames.isEmpty = false := by
      cases hg : newGames.isEmpty
      · rfl
      · exfalso
        rw [List.isEmpty_iff.mp hg] at h
        simp [save_data] at h
    unfold save_data
    rw [hne]
    simp only [Bool.false_eq_true, if_false]
    unfold buildDataFrame
    rw [if_pos hw]
    simp only []
    have hcomb : (if m.isEmpty then newGames.map padRow
        else m ++ newGames.map padRow) = m ++ newGames.map padRow := by
      cases hme : m.isEmpty
      · rfl
      · rw [List.isEmpty_iff.mp hme]
        simp
    rw [hcomb, hm, pipeline_idem]

/-- Concrete instance of C4: merging one row into an empty dataset, then
merging the same row again, reproduces the same dataset; merging an empty
list is the identity with no write. -/
theorem C4_reconciler_idempotent_witness :
    save_data [] [wRow "A. Player" "1/5/2026" "BOS" "NYK" "10"] =
      Except.ok ([padRow (wRow "A. Player" "1/5/2026" "BOS" "NYK" "10")],
        true) ∧
    save_data [padRow (wRow "A. Player" "1/5/2026" "BOS" "NYK" "10")]
        [wRow "A. Player" "1/5/2026" "BOS" "NYK" "10"] =
      Except.ok ([padRow (wRow "A. Player" "1/5/2026" "BOS" "NYK" "10")],
        true) ∧
    save_data [padRow (wRow "A. Player" "1/5/2026" "BOS" "NYK" "10")] [] =
      Except.ok ([padRow (wRow "A. Player" "1/5/2026" "BOS" "NYK" "10")],
        false) := by
  refine ⟨rfl, ?_, ?_⟩
  · exact C4_reconciler_idempotent.2 []
      [padRow (wRow "A. Player" "1/5/2026" "BOS" "NYK" "10")]
      [wRow "A. Player" "1/5/2026" "BOS" "NYK" "10"] (by rfl)
  · exact C4_reconciler_idempotent.1
      [padRow (wRow "A. Player" "1/5/2026" "BOS" "NYK" "10")]

end NBA
